import Mathlib

/-!
Verification of the payload reshaping and decoding pipeline of the
atlas-api-wrapper repository (atlas_api/__init__.py and atlas_api/models.py).

The embedding models JSON records as ordered association lists (Python dicts
preserve insertion order), Python exceptions as an explicit error type, and
the functions shape_data, parse_story (after JSON decoding), the cattrs
datetime structuring hook, and extract_fic_id directly from the source.
-/

set_option maxRecDepth 10000

/-- JSON-ish runtime values as they appear in the records handled by
shape_data: scalars, null, lists and nested objects. -/
inductive RValue where
  | str (s : String)
  | int (n : Int)
  | bool (b : Bool)
  | null
  | arr (xs : List RValue)
  | obj (fields : List (String × RValue))

/-- A Python dict of string keys, modelled as an ordered association list
(keys are unique in every record the code builds). -/
abbrev Record := List (String × RValue)

/-- The Python exceptions the modelled code can raise. -/
inductive PyErr where
  | keyError (k : String)
  | indexError
  | typeError
  | attributeError
  | valueError
deriving DecidableEq

/-- Python truthiness of a value, as used by the walrus-if tests in
shape_data. -/
def pyTruthy : RValue → Bool
  | .str s => !s.data.isEmpty
  | .int n => n != 0
  | .bool b => b
  | .null => false
  | .arr xs => !xs.isEmpty
  | .obj fs => !fs.isEmpty

/-- Dictionary lookup (data[key] when it succeeds; first match). -/
def dictGet : Record → String → Option RValue
  | [], _ => none
  | (k₀, v₀) :: rest, k => if k₀ == k then some v₀ else dictGet rest k

/-- Dictionary assignment d[key] = v: replaces the value in place when the
key exists, otherwise appends the new pair at the end, exactly as a Python
dict with unique keys behaves. -/
def dictSet : Record → String → RValue → Record
  | [], k, v => [(k, v)]
  | (k₀, v₀) :: rest, k, v =>
    if k₀ == k then (k, v) :: rest else (k₀, v₀) :: dictSet rest k v

/-- data.update(updated): applies every assignment of u to d in order. -/
def dictUpdate (d : Record) (u : Record) : Record :=
  u.foldl (fun acc p => dictSet acc p.1 p.2) d

/-- First occurrence of the nonempty pattern p :: ps in a character list:
returns the part before the occurrence and the part after it. -/
def firstOccur (p : Char) (ps : List Char) : List Char → Option (List Char × List Char)
  | [] => none
  | c :: cs =>
    if (p :: ps).isPrefixOf (c :: cs) then some ([], cs.drop ps.length)
    else (firstOccur p ps cs).map (fun pr => (c :: pr.1, pr.2))

/-- Python str.split(sep) on character lists for a single-character
separator (the only separators shape_data splits keys and genres on):
splits on every occurrence, left to right. -/
def splitChar (p : Char) : List Char → List (List Char)
  | [] => [[]]
  | c :: cs =>
    if c == p then [] :: splitChar p cs
    else
      match splitChar p cs with
      | [] => [[c]]
      | r :: rs => (c :: r) :: rs

/-- Python str.split(", ") on character lists (the separator used for the
raw_characters segments): splits on every non-overlapping occurrence,
left to right. -/
def splitCS : List Char → List (List Char)
  | [] => [[]]
  | ',' :: ' ' :: rest => [] :: splitCS rest
  | c :: cs =>
    match splitCS cs with
    | [] => [[c]]
    | r :: rs => (c :: r) :: rs

/-- Python membership test pat in s for strings (substring containment). -/
def pyInStr (pat s : String) : Bool :=
  match pat.data with
  | [] => true
  | p :: ps => (firstOccur p ps s.data).isSome

/-- Python s.split(sep) for strings, single-character separator. -/
def pySplitChar (s : String) (sep : Char) : List String :=
  (splitChar sep s.data).map (fun l => ⟨l⟩)

/-- Python s.removesuffix(suf) on character lists. -/
def removeSuffixL (l suf : List Char) : List Char :=
  if suf.isSuffixOf l then l.take (l.length - suf.length) else l

/-- Python single-character str.replace: every occurrence of c becomes r. -/
def replaceCharL (c : Char) (r : List Char) : List Char → List Char
  | [] => []
  | x :: xs => (if x == c then r else [x]) ++ replaceCharL c r xs

/-- The whitespace characters stripped by Python str.strip(). -/
def pySpace (c : Char) : Bool :=
  c == ' ' || c == '\t' || c == '\n' || c == '\r' ||
    c == Char.ofNat 11 || c == Char.ofNat 12

/-- Truthiness of ch.strip(): the segment has some non-whitespace char. -/
def stripKeeps (l : List Char) : Bool := l.any (fun c => !pySpace c)

/-- The segments produced for raw_characters before filtering:
chars.replace("[", ", ").replace("]", ", ").split(", "). -/
def charList (s : String) : List (List Char) :=
  splitCS (replaceCharL ']' [',', ' '] (replaceCharL '[' [',', ' '] s.data))

/-- Those raw segments as strings (used to state order preservation). -/
def charSegments (s : String) : List String :=
  (charList s).map (fun l => ⟨l⟩)

/-- The characters list computed by shape_data from raw_characters. -/
def charactersOf (s : String) : List String :=
  ((charList s).filter stripKeeps).map (fun l => ⟨l⟩)

/-- The genres list computed by shape_data: raw_genres.split("/"). -/
def genresOf (s : String) : List String :=
  (splitChar '/' s.data).map (fun l => ⟨l⟩)

/-- The fandoms list computed by shape_data: split on " and " with maxsplit
1, then strip a trailing " Crossovers" from the second segment when the
split produced two segments. -/
def fandomsOf (s : String) : List String :=
  match firstOccur ' ' "and ".data s.data with
  | none => [s]
  | some (pre, post) => [⟨pre⟩, ⟨removeSuffixL post " Crossovers".data⟩]

/-- key.split("_")[0]: the first underscore-delimited segment of a key
(split always returns at least one segment, so indexing 0 never fails). -/
def firstSeg (k : String) : String := (pySplitChar k '_').headD ""

/-- The elif chain of the shape_data loop body, reached when the author
condition is false: the fandom_id and _count rules. -/
def processKeyTail (u : Record) (key : String) (v : RValue) : Except PyErr Record :=
  if pyInStr "fandom_id" key then
    match dictGet u "fandom_ids" with
    | some (.arr xs) => .ok (dictSet u "fandom_ids" (.arr (xs ++ [v])))
    | some _ => .error .attributeError
    | none => .ok (dictSet u "fandom_ids" (.arr [v]))
  else if pyInStr "_count" key then
    .ok (dictSet u (firstSeg key ++ "s") v)
  else
    .ok u

/-- The author branch of the loop body given (key.split("_"))[1] when it
exists: no second segment raises IndexError; an empty segment is falsy and
falls through to the elif chain; otherwise
updated.setdefault("author", dict())[suffix] = value. -/
def processAuthorSeg (u : Record) (key : String) (v : RValue) :
    Option String → Except PyErr Record
  | none => .error .indexError
  | some suffix =>
    if suffix.data.isEmpty then processKeyTail u key v
    else
      match dictGet u "author" with
      | some (.obj o) => .ok (dictSet u "author" (.obj (dictSet o suffix v)))
      | some _ => .error .typeError
      | none => .ok (dictSet u "author" (.obj (dictSet [] suffix v)))

/-- One iteration of the shape_data loop: keys containing "author" go to
the author rule, the rest to the elif chain. -/
def processKey (u : Record) (key : String) (v : RValue) : Except PyErr Record :=
  if pyInStr "author" key then processAuthorSeg u key v ((pySplitChar key '_')[1]?)
  else processKeyTail u key v

/-- The for key in data loop of shape_data, building the updated dict. -/
def shapeLoop : Record → Record → Except PyErr Record
  | [], u => .ok u
  | (k, v) :: rest, u =>
    match processKey u k v with
    | .error e => .error e
    | .ok u' => shapeLoop rest u'

/-- The body of a raw-field block given the looked-up value: when it is
truthy it must be a string (any other truthy value lacks the string methods
called on it, an AttributeError) and the derived list is stored under
outKey; a falsy value leaves the updated dict alone. -/
def rawBlockVal (u : Record) (outKey : String) (f : String → List String)
    (v : RValue) : Except PyErr Record :=
  if pyTruthy v then
    match v with
    | .str s => .ok (dictSet u outKey (.arr ((f s).map .str)))
    | _ => .error .attributeError
  else .ok u

/-- One of the three raw-field blocks of shape_data: data[key] (KeyError
when the key is absent), then the walrus-if block on the value. -/
def applyRawField (data u : Record) (key outKey : String)
    (f : String → List String) : Except PyErr Record :=
  match dictGet data key with
  | none => .error (.keyError key)
  | some v => rawBlockVal u outKey f v

/-- shape_data from atlas_api/__init__.py lines 155-175 (identical logic to
the preprocessing_hook of atlas_api/models.py lines 116-137): the key loop,
the three raw-field blocks, then data.update(updated). -/
def shape_data (data : Record) : Except PyErr Record :=
  match shapeLoop data [] with
  | .error e => .error e
  | .ok u =>
    match applyRawField data u "raw_characters" "characters" charactersOf with
    | .error e => .error e
    | .ok u =>
      match applyRawField data u "raw_genres" "genres" genresOf with
      | .error e => .error e
      | .ok u =>
        match applyRawField data u "raw_fandoms" "fandoms" fandomsOf with
        | .error e => .error e
        | .ok u => .ok (dictUpdate data u)

/-- A parsed naive-or-UTC timestamp (the only timezone the API emits). -/
structure PyDateTime where
  year : Nat
  month : Nat
  day : Nat
  hour : Nat
  minute : Nat
  second : Nat
  utc : Bool
deriving DecidableEq

/-- Numeric value of an ASCII digit character. -/
def digitVal (c : Char) : Nat := c.toNat - '0'.toNat

/-- Modelled from the Python standard library: datetime.fromisoformat,
restricted to the 19-character form YYYY-MM-DDTHH:MM:SS this API emits
(after its Z suffix is removed). Any other string - in particular the
empty string - raises ValueError, as the stdlib parser does. -/
def parse19 (s : String) : Except PyErr PyDateTime :=
  match s.data with
  | [y1, y2, y3, y4, sA, m1, m2, sB, d1, d2, sT, h1, h2, sC, i1, i2, sD, c1, c2] =>
    if y1.isDigit && y2.isDigit && y3.isDigit && y4.isDigit && sA == '-' &&
        m1.isDigit && m2.isDigit && sB == '-' && d1.isDigit && d2.isDigit &&
        sT == 'T' && h1.isDigit && h2.isDigit && sC == ':' &&
        i1.isDigit && i2.isDigit && sD == ':' && c1.isDigit && c2.isDigit then
      let mo := 10 * digitVal m1 + digitVal m2
      let da := 10 * digitVal d1 + digitVal d2
      let ho := 10 * digitVal h1 + digitVal h2
      let mi := 10 * digitVal i1 + digitVal i2
      let se := 10 * digitVal c1 + digitVal c2
      if Nat.ble 1 mo && Nat.ble mo 12 && Nat.ble 1 da && Nat.ble da 31 &&
          Nat.ble ho 23 && Nat.ble mi 59 && Nat.ble se 59 then
        .ok ⟨1000 * digitVal y1 + 100 * digitVal y2 + 10 * digitVal y3 + digitVal y4,
          mo, da, ho, mi, se, false⟩
      else .error .valueError
    else .error .valueError
  | _ => .error .valueError

/-- datetime.fromisoformat (see parse19 for the modelled subset). -/
def fromisoformat (s : String) : Except PyErr PyDateTime := parse19 s

/-- The cattrs datetime structuring hook registered on _meta_converter at
atlas_api/models.py line 143:
datetime.fromisoformat(dt[:(-1 if "Z" in dt else 0)]).
dt[:-1] drops the final character and dt[:0] is the empty string. -/
def structure_datetime (dt : String) : Except PyErr PyDateTime :=
  fromisoformat (if pyInStr "Z" dt then ⟨dt.data.dropLast⟩ else ⟨dt.data.take 0⟩)

/-- Modelled from the msgspec library: conversion of an ISO-8601 string to
datetime, as msgspec.convert performs for datetime-typed fields. A trailing
Z yields an aware UTC datetime, no suffix yields a naive one. -/
def msgspec_datetime (s : String) : Except PyErr PyDateTime :=
  if "Z".data.isSuffixOf s.data then
    match parse19 ⟨s.data.dropLast⟩ with
    | .ok d => .ok ⟨d.year, d.month, d.day, d.hour, d.minute, d.second, true⟩
    | .error e => .error e
  else parse19 s

/-- The Author struct of atlas_api/__init__.py (url is a derived property,
not stored). -/
structure Author where
  id : Int
  name : String
deriving DecidableEq

/-- The Story struct of atlas_api/__init__.py (url is a derived property;
updated defaults to None and the four list fields default to empty). -/
structure Story where
  id : Int
  author : Author
  title : String
  description : String
  chapters : Int
  published : PyDateTime
  is_complete : Bool
  words : Int
  language : String
  rating : String
  is_crossover : Bool
  reviews : Int
  favorites : Int
  follows : Int
  updated : Option PyDateTime
  genres : List String
  characters : List String
  fandoms : List String
  fandom_ids : List (Option Int)
deriving DecidableEq

/-- Strict conversion of a value to an integer field (bools and strings are
not accepted for int-typed fields). -/
def asInt : RValue → Except PyErr Int
  | .int n => .ok n
  | _ => .error .typeError

/-- Strict conversion to a string field. -/
def asStr : RValue → Except PyErr String
  | .str s => .ok s
  | _ => .error .typeError

/-- Strict conversion to a boolean field. -/
def asBool : RValue → Except PyErr Bool
  | .bool b => .ok b
  | _ => .error .typeError

/-- Conversion to an optional-integer element of fandom_ids. -/
def asOptInt : RValue → Except PyErr (Option Int)
  | .int n => .ok (some n)
  | .null => .ok none
  | _ => .error .typeError

/-- Conversion to a datetime field from an ISO-8601 string. -/
def asDatetime : RValue → Except PyErr PyDateTime
  | .str s => msgspec_datetime s
  | _ => .error .typeError

/-- Conversion to a list-of-strings field. -/
def asStrList : RValue → Except PyErr (List String)
  | .arr xs => xs.mapM asStr
  | _ => .error .typeError

/-- Conversion to the fandom_ids list; individual entries may be null. -/
def asOptIntList : RValue → Except PyErr (List (Option Int))
  | .arr xs => xs.mapM asOptInt
  | _ => .error .typeError

/-- A required field: absence is a decode error naming the field. -/
def reqField {α : Type} (r : Record) (k : String)
    (f : RValue → Except PyErr α) : Except PyErr α :=
  match dictGet r k with
  | none => .error (.keyError k)
  | some v => f v

/-- A list-valued field with an empty-list default when absent. -/
def listField {α : Type} (r : Record) (k : String)
    (f : RValue → Except PyErr (List α)) : Except PyErr (List α) :=
  match dictGet r k with
  | none => .ok []
  | some v => f v

/-- The optional updated timestamp: absent or null decodes to no value. -/
def optDatetimeField (r : Record) (k : String) : Except PyErr (Option PyDateTime) :=
  match dictGet r k with
  | none => .ok none
  | some .null => .ok none
  | some (.str s) =>
    match msgspec_datetime s with
    | .ok d => .ok (some d)
    | .error e => .error e
  | some _ => .error .typeError

/-- Decoding of the nested author object. -/
def asAuthor : RValue → Except PyErr Author
  | .obj o => do
    let id ← reqField o "id" asInt
    let name ← reqField o "name" asStr
    .ok ⟨id, name⟩
  | _ => .error .typeError

/-- Modelled from the msgspec library: msgspec.convert(obj, type=Story) -
schema-directed validation of a reshaped record against the Story struct.
Extra keys are ignored; missing required fields fail; missing optional
fields take their declared defaults. -/
def convert_story (r : Record) : Except PyErr Story := do
  let id ← reqField r "id" asInt
  let author ← reqField r "author" asAuthor
  let title ← reqField r "title" asStr
  let description ← reqField r "description" asStr
  let chapters ← reqField r "chapters" asInt
  let published ← reqField r "published" asDatetime
  let is_complete ← reqField r "is_complete" asBool
  let words ← reqField r "words" asInt
  let language ← reqField r "language" asStr
  let rating ← reqField r "rating" asStr
  let is_crossover ← reqField r "is_crossover" asBool
  let reviews ← reqField r "reviews" asInt
  let favorites ← reqField r "favorites" asInt
  let follows ← reqField r "follows" asInt
  let updated ← optDatetimeField r "updated"
  let genres ← listField r "genres" asStrList
  let characters ← listField r "characters" asStrList
  let fandoms ← listField r "fandoms" asStrList
  let fandom_ids ← listField r "fandom_ids" asOptIntList
  .ok ⟨id, author, title, description, chapters, published, is_complete, words,
    language, rating, is_crossover, reviews, favorites, follows, updated,
    genres, characters, fandoms, fandom_ids⟩

/-- parse_story of atlas_api/__init__.py lines 178-181, after the initial
msgspec JSON decode (the input here is the already-decoded record):
reshape, then convert to Story. -/
def parse_story (data : Record) : Except PyErr Story :=
  match shape_data data with
  | .error e => .error e
  | .ok r => convert_story r

/-- Attempt to consume a literal at the head of the text. -/
def tryLit (lit : List Char) (s : List Char) : Option (List Char) :=
  if lit.isPrefixOf s then some (s.drop lit.length) else none

/-- The maximal run of ASCII decimal digits at the head of the text, and
the remaining text (the greedy digit group of the regex). -/
def digitsRun : List Char → List Char × List Char
  | [] => ([], [])
  | c :: cs =>
    if c.isDigit then
      match digitsRun cs with
      | (ds, rest) => (c :: ds, rest)
    else ([], c :: cs)

/-- The integer denoted by a run of decimal digits (int of the group). -/
def digitsToNat (ds : List Char) : Nat :=
  ds.foldl (fun n c => 10 * n + digitVal c) 0

/-- Match the mandatory part of the FFN story regex at this position:
the literal fanfiction.net/s/ followed by at least one digit. -/
def matchHost (s : List Char) : Option Nat :=
  match tryLit "fanfiction.net/s/".data s with
  | none => none
  | some rest =>
    match digitsRun rest with
    | ([], _) => none
    | (ds, _) => some (digitsToNat ds)

/-- The subdomain alternation (www\.|m\.|) of the regex, with regex
backtracking: each alternative is tried in order against the rest of the
pattern. -/
def matchSubdomain (s : List Char) : Option Nat :=
  (match tryLit "www.".data s with
   | some r => matchHost r
   | none => none) <|>
  (match tryLit "m.".data s with
   | some r => matchHost r
   | none => none) <|>
  matchHost s

/-- The scheme alternation (https://|http://|) of the regex. -/
def matchScheme (s : List Char) : Option Nat :=
  (match tryLit "https://".data s with
   | some r => matchSubdomain r
   | none => none) <|>
  (match tryLit "http://".data s with
   | some r => matchSubdomain r
   | none => none) <|>
  matchSubdomain s

/-- re.search: try the pattern at every position, leftmost first. -/
def scanText : List Char → Option Nat
  | [] => none
  | c :: cs =>
    match matchScheme (c :: cs) with
    | some n => some n
    | none => scanText cs

/-- extract_fic_id of atlas_api/__init__.py lines 402-416: search the text
for the first match of
(https://|http://|)(www\.|m\.|)fanfiction\.net/s/(?P<id>\d+)
and return the integer value of the digit group, or no value. -/
def extract_fic_id (text : String) : Option Nat := scanText text.data

/-- A full decoded Atlas payload record (the shape of the parse_story test
data in the repository): flat author, count and fandom-id fields plus the
three raw fields. -/
def storyRec : Record := [
  ("id", .int 14174230),
  ("update_id", .int 446518576),
  ("web_id", .int 151645549),
  ("web_created", .str "2023-06-10T06:15:58.105Z"),
  ("author_id", .int 424665),
  ("author_name", .str "megamatt09"),
  ("title", .str "Parselking"),
  ("description", .str "An AU story."),
  ("published", .str "2022-12-18T23:18:25Z"),
  ("updated", .str "2023-05-21T21:04:53Z"),
  ("is_complete", .bool false),
  ("rating", .str "M"),
  ("language", .str "English"),
  ("raw_genres", .str "Drama/Supernatural"),
  ("chapter_count", .int 13),
  ("word_count", .int 114913),
  ("review_count", .int 216),
  ("favorite_count", .int 878),
  ("follow_count", .int 1073),
  ("raw_characters", .null),
  ("raw_fandoms", .str "Harry Potter"),
  ("is_crossover", .bool false),
  ("fandom_id0", .int 224),
  ("fandom_id1", .null)
]

/-- storyRec with a bracketed raw_characters value. -/
def storyRecChars : Record :=
  dictSet storyRec "raw_characters" (.str "[Harry, Hermione]")

/-- storyRec without its fandom_id0/fandom_id1 fields. -/
def storyRecNoFandoms : Record :=
  storyRec.filter (fun p => !pyInStr "fandom_id" p.1)

/-- An already-reshaped record in the sense of the idempotence property: no
flat author_*, fandom_id-numbered or *_count keys, but all five derived
keys present (plus the retained raw_* keys, here null). -/
def reshapedRec : Record := [
  ("id", .int 14174230),
  ("author", .obj [("id", .int 424665), ("name", .str "megamatt09")]),
  ("fandom_ids", .arr [.int 224, .null]),
  ("genres", .arr [.str "Drama"]),
  ("characters", .arr []),
  ("fandoms", .arr [.str "Harry Potter"]),
  ("raw_characters", .null),
  ("raw_genres", .null),
  ("raw_fandoms", .null)
]

/-- The three raw_* keys with null values: the minimal tail a record needs
for shape_data to get past its raw-field subscript lookups. -/
def rawNullShell : Record :=
  [("raw_characters", .null), ("raw_genres", .null), ("raw_fandoms", .null)]

/-- A record with author keys of one, two and an empty middle underscore
segment. -/
def authorRec (v1 v2 v3 v4 : RValue) : Record :=
  ("author_id", v1) :: ("author_name", v2) :: ("author_pen_name", v3) ::
    ("author__note", v4) :: rawNullShell

/-- A record whose raw_fandoms is the only truthy raw field. -/
def fandomShell (s : String) : Record :=
  [("raw_characters", .null), ("raw_genres", .null), ("raw_fandoms", .str s)]

/-- A record with a single symbolic key in front of the raw-null shell. -/
def oneKeyRec (k : String) (v : RValue) : Record := (k, v) :: rawNullShell

/-- Whether a raw value is usable by a raw-field block without an
exception: a string, or falsy. -/
def rawValOkB (v : RValue) : Bool :=
  match v with
  | .str _ => true
  | w => !pyTruthy w

/-- Whether a raw field is usable by shape_data without an exception: the
key is present and its value is a string or is falsy. -/
def rawOkB (r : Record) (k : String) : Bool :=
  match dictGet r k with
  | some v => rawValOkB v
  | none => false

/-- The loop invariant of shape_data: in the updated dict being built, the
author entry (if any) is an object and the fandom_ids entry (if any) is a
list. -/
def goodU (u : Record) : Prop :=
  (∀ w, dictGet u "author" = some w → ∃ o, w = RValue.obj o) ∧
  (∀ w, dictGet u "fandom_ids" = some w → ∃ xs, w = RValue.arr xs)

theorem strData_append (a b : String) : (a ++ b).data = a.data ++ b.data := rfl

theorem dictGet_dictSet_self (r : Record) (k : String) (v : RValue) :
    dictGet (dictSet r k v) k = some v := by
  induction r with
  | nil => simp [dictSet, dictGet]
  | cons p rest ih =>
    obtain ⟨k₀, v₀⟩ := p
    by_cases h : (k₀ == k) = true
    · simp [dictSet, h, dictGet]
    · simp [dictSet, h, dictGet, ih]

theorem dictGet_dictSet_ne (r : Record) (k k' : String) (v : RValue) (h : k' ≠ k) :
    dictGet (dictSet r k v) k' = dictGet r k' := by
  have hb : (k == k') = false := beq_eq_false_iff_ne.mpr (Ne.symm h)
  induction r with
  | nil => simp [dictSet, dictGet, hb]
  | cons p rest ih =>
    obtain ⟨k₀, v₀⟩ := p
    by_cases h0 : (k₀ == k) = true
    · have he : k₀ = k := eq_of_beq h0
      simp [dictSet, h0, dictGet, hb, he]
    · simp only [dictSet, h0, if_false, Bool.false_eq_true, dictGet]
      by_cases h1 : (k₀ == k') = true
      · simp [h1]
      · simp [h1, ih]

theorem firstOccur_cons (p : Char) (ps : List Char) (c : Char) (cs : List Char) :
    firstOccur p ps (c :: cs) =
      if (p :: ps).isPrefixOf (c :: cs) then some ([], cs.drop ps.length)
      else (firstOccur p ps cs).map (fun pr => (c :: pr.1, pr.2)) := rfl

theorem decomp_of_firstOccur (p : Char) (ps : List Char) :
    ∀ (s pre post : List Char), firstOccur p ps s = some (pre, post) →
      s = pre ++ (p :: ps) ++ post := by
  intro s
  induction s with
  | nil => intro pre post h; simp [firstOccur] at h
  | cons c cs ih =>
    intro pre post h
    rw [firstOccur_cons] at h
    by_cases hp : (p :: ps).isPrefixOf (c :: cs) = true
    · rw [if_pos hp] at h
      obtain ⟨h1, h2⟩ := Prod.mk.inj (Option.some.inj h)
      subst h1; subst h2
      obtain ⟨t, ht⟩ := List.isPrefixOf_iff_prefix.mp hp
      have hc : p :: (ps ++ t) = c :: cs := by simpa using ht
      injection hc with hc1 hc2
      subst hc1
      rw [← hc2, List.drop_left]
      simp
    · rw [if_neg hp, Option.map_eq_some'] at h
      obtain ⟨⟨a, b⟩, ha, hab⟩ := h
      obtain ⟨h1, h2⟩ := Prod.mk.inj hab
      subst h1; subst h2
      have := ih a b ha
      simp [this]

theorem occ_isSome (p : Char) (ps : List Char) :
    ∀ (pre s post : List Char), s = pre ++ (p :: ps) ++ post →
      (firstOccur p ps s).isSome = true := by
  intro pre
  induction pre with
  | nil =>
    intro s post h
    subst h
    have hp : (p :: ps).isPrefixOf (p :: (ps ++ post)) = true :=
      List.isPrefixOf_iff_prefix.mpr ⟨post, by simp⟩
    rw [show ([] : List Char) ++ (p :: ps) ++ post = p :: (ps ++ post) by simp]
    rw [firstOccur_cons, if_pos hp]
    simp
  | cons a pre' ih =>
    intro s post h
    subst h
    rw [show (a :: pre') ++ (p :: ps) ++ post = a :: (pre' ++ (p :: ps) ++ post) from rfl]
    rw [firstOccur_cons]
    by_cases hp : (p :: ps).isPrefixOf (a :: (pre' ++ (p :: ps) ++ post)) = true
    · rw [if_pos hp]; simp
    · have hex := ih (pre' ++ (p :: ps) ++ post) post rfl
      cases hfo : firstOccur p ps (pre' ++ (p :: ps) ++ post) with
      | none => rw [hfo] at hex; simp at hex
      | some pr => rw [if_neg hp]; simp

theorem firstOccur_cons_none {p : Char} {ps : List Char} {c : Char} {cs : List Char}
    (h : firstOccur p ps (c :: cs) = none) : firstOccur p ps cs = none := by
  rw [firstOccur_cons] at h
  by_cases hp : (p :: ps).isPrefixOf (c :: cs) = true
  · rw [if_pos hp] at h; simp at h
  · rw [if_neg hp] at h; exact Option.map_eq_none'.mp h

theorem firstOccur_none_of_append (p : Char) (ps s t : List Char)
    (h : firstOccur p ps (s ++ t) = none) : firstOccur p ps s = none := by
  cases ho : firstOccur p ps s with
  | none => rfl
  | some pr =>
    obtain ⟨pre, post⟩ := pr
    have hd := decomp_of_firstOccur p ps s pre post ho
    have hs : (firstOccur p ps (s ++ t)).isSome = true :=
      occ_isSome p ps pre (s ++ t) (post ++ t) (by rw [hd]; simp)
    rw [h] at hs
    simp at hs

theorem firstOccur_none_of_append_left (p : Char) (ps s t : List Char)
    (h : firstOccur p ps (s ++ t) = none) : firstOccur p ps t = none := by
  cases ho : firstOccur p ps t with
  | none => rfl
  | some pr =>
    obtain ⟨pre, post⟩ := pr
    have hd := decomp_of_firstOccur p ps t pre post ho
    have hs : (firstOccur p ps (s ++ t)).isSome = true :=
      occ_isSome p ps (s ++ pre) (s ++ t) post (by rw [hd]; simp)
    rw [h] at hs
    simp at hs

theorem firstOccur_sandwich (p : Char) (ps : List Char) (X Z : List Char)
    (h : firstOccur p ps (X ++ (p :: ps).dropLast) = none) :
    firstOccur p ps (X ++ ((p :: ps) ++ Z)) = some (X, Z) := by
  induction X with
  | nil =>
    have hp : (p :: ps).isPrefixOf (p :: (ps ++ Z)) = true :=
      List.isPrefixOf_iff_prefix.mpr ⟨Z, by simp⟩
    rw [show ([] : List Char) ++ ((p :: ps) ++ Z) = p :: (ps ++ Z) by simp]
    rw [firstOccur_cons, if_pos hp, List.drop_left]
  | cons a X' ih =>
    have hEq : (a :: X') ++ (p :: ps).dropLast = a :: (X' ++ (p :: ps).dropLast) := rfl
    rw [hEq] at h
    have hne : (p :: ps) ≠ [] := by simp
    have hWhole : a :: (X' ++ ((p :: ps) ++ Z)) =
        (a :: (X' ++ (p :: ps).dropLast)) ++ ((p :: ps).getLast hne :: Z) := by
      have hrec : (p :: ps).dropLast ++ [(p :: ps).getLast hne] = p :: ps :=
        List.dropLast_append_getLast hne
      calc a :: (X' ++ ((p :: ps) ++ Z))
          = a :: (X' ++ (((p :: ps).dropLast ++ [(p :: ps).getLast hne]) ++ Z)) := by
            rw [hrec]
        _ = (a :: (X' ++ (p :: ps).dropLast)) ++ ((p :: ps).getLast hne :: Z) := by
            simp [List.append_assoc]
    have hnp : ¬ (p :: ps).isPrefixOf (a :: (X' ++ ((p :: ps) ++ Z))) = true := by
      intro hp
      rw [List.isPrefixOf_iff_prefix] at hp
      have hA : (a :: (X' ++ (p :: ps).dropLast)) <+:
          a :: (X' ++ ((p :: ps) ++ Z)) := by
        rw [hWhole]; exact ⟨(p :: ps).getLast hne :: Z, rfl⟩
      have hlen : (p :: ps).length ≤ (a :: (X' ++ (p :: ps).dropLast)).length := by
        simp [List.length_dropLast]
      have hpat : (p :: ps) <+: (a :: (X' ++ (p :: ps).dropLast)) :=
        List.prefix_of_prefix_length_le hp hA hlen
      obtain ⟨t, ht⟩ := hpat
      have hs : (firstOccur p ps (a :: (X' ++ (p :: ps).dropLast))).isSome = true :=
        occ_isSome p ps [] _ t (by simp [ht.symm])
      rw [h] at hs
      simp at hs
    have h' : firstOccur p ps (X' ++ (p :: ps).dropLast) = none :=
      firstOccur_cons_none h
    have hrec := ih h'
    rw [show (a :: X') ++ ((p :: ps) ++ Z) = a :: (X' ++ ((p :: ps) ++ Z)) from rfl]
    rw [firstOccur_cons, if_neg hnp, hrec]
    rfl

theorem splitChar_ne_nil (p : Char) (s : List Char) : splitChar p s ≠ [] := by
  cases s with
  | nil => simp [splitChar]
  | cons c cs =>
    rw [splitChar]
    split
    · simp
    · split <;> simp

theorem headSeg_pfx (p : Char) (s : List Char) :
    (splitChar p s).headD [] <+: s := by
  induction s with
  | nil => simp [splitChar]
  | cons c cs ih =>
    rw [splitChar]
    split
    · simp
    · cases hsp : splitChar p cs with
      | nil => exact absurd hsp (splitChar_ne_nil p cs)
      | cons r rs =>
        simp only [hsp, List.headD_cons]
        rw [hsp] at ih
        simp only [List.headD_cons] at ih
        exact (List.cons_prefix_cons).mpr ⟨rfl, ih⟩

theorem append_s_ne_author (x : String) : x ++ "s" ≠ "author" := by
  intro h
  have hd : x.data ++ ['s'] = "author".data := congrArg String.data h
  have h1 : (x.data ++ ['s']).getLast? = some 's' := by
    rw [List.getLast?_concat]
  rw [hd] at h1
  exact absurd h1 (by decide)

theorem append_s_eq_fandom_ids {x : String} (h : x ++ "s" = "fandom_ids") :
    x = "fandom_id" := by
  have hd : x.data ++ ['s'] = "fandom_ids".data := congrArg String.data h
  have h2 : x.data = "fandom_id".data := by
    have h1 := congrArg List.dropLast hd
    rw [List.dropLast_concat] at h1
    exact h1.trans (by decide)
  cases x
  cases h2
  rfl

theorem firstSeg_data (k : String) :
    (firstSeg k).data = (splitChar '_' k.data).headD [] := by
  unfold firstSeg pySplitChar
  cases hsp : splitChar '_' k.data with
  | nil => exact absurd hsp (splitChar_ne_nil '_' k.data)
  | cons r rs => simp [hsp]

theorem pyInStr_of_data_append (pat k : String) (t : List Char) (hp : pat.data ≠ [])
    (h : k.data = pat.data ++ t) : pyInStr pat k = true := by
  unfold pyInStr
  cases hpd : pat.data with
  | nil => exact absurd hpd hp
  | cons p ps =>
    rw [hpd] at h
    exact occ_isSome p ps [] k.data t (by simpa using h)

theorem count_key_ne_fandom_ids {k : String} (h : pyInStr "fandom_id" k = false) :
    firstSeg k ++ "s" ≠ "fandom_ids" := by
  intro he
  have hx : firstSeg k = "fandom_id" := append_s_eq_fandom_ids he
  have hpfx : "fandom_id".data <+: k.data := by
    rw [← hx, firstSeg_data]
    exact headSeg_pfx '_' k.data
  obtain ⟨t, ht⟩ := hpfx
  have := pyInStr_of_data_append "fandom_id" k t (by decide) ht.symm
  rw [h] at this
  exact absurd this (by decide)

theorem processKeyTail_ok (u : Record) (k : String) (v : RValue) (hu : goodU u) :
    ∃ u', processKeyTail u k v = .ok u' ∧ goodU u' := by
  unfold processKeyTail
  by_cases h1 : pyInStr "fandom_id" k = true
  · rw [if_pos h1]
    cases hf : dictGet u "fandom_ids" with
    | none =>
      refine ⟨_, rfl, fun w hw => ?_, fun w hw => ?_⟩
      · rw [dictGet_dictSet_ne _ _ _ _ (by decide)] at hw
        exact hu.1 w hw
      · rw [dictGet_dictSet_self] at hw
        exact ⟨[v], (Option.some.inj hw).symm⟩
    | some w0 =>
      obtain ⟨xs, hxs⟩ := hu.2 w0 hf
      subst hxs
      refine ⟨_, rfl, fun w hw => ?_, fun w hw => ?_⟩
      · rw [dictGet_dictSet_ne _ _ _ _ (by decide)] at hw
        exact hu.1 w hw
      · rw [dictGet_dictSet_self] at hw
        exact ⟨xs ++ [v], (Option.some.inj hw).symm⟩
  · rw [if_neg h1]
    by_cases h2 : pyInStr "_count" k = true
    · rw [if_pos h2]
      have hA : firstSeg k ++ "s" ≠ "author" := append_s_ne_author _
      have hF : firstSeg k ++ "s" ≠ "fandom_ids" :=
        count_key_ne_fandom_ids (by simpa using h1)
      refine ⟨_, rfl, fun w hw => ?_, fun w hw => ?_⟩
      · rw [dictGet_dictSet_ne _ _ _ _ (Ne.symm hA)] at hw
        exact hu.1 w hw
      · rw [dictGet_dictSet_ne _ _ _ _ (Ne.symm hF)] at hw
        exact hu.2 w hw
    · rw [if_neg h2]
      exact ⟨u, rfl, hu⟩

theorem processAuthorSeg_ok (u : Record) (k : String) (v : RValue) (hu : goodU u)
    (suffix : String) :
    ∃ u', processAuthorSeg u k v (some suffix) = .ok u' ∧ goodU u' := by
  simp only [processAuthorSeg]
  by_cases he : suffix.data.isEmpty = true
  · rw [if_pos he]
    exact processKeyTail_ok u k v hu
  · rw [if_neg he]
    cases hga : dictGet u "author" with
    | none =>
      refine ⟨_, rfl, fun w hw => ?_, fun w hw => ?_⟩
      · rw [dictGet_dictSet_self] at hw
        exact ⟨dictSet [] suffix v, (Option.some.inj hw).symm⟩
      · rw [dictGet_dictSet_ne _ _ _ _ (by decide)] at hw
        exact hu.2 w hw
    | some w0 =>
      obtain ⟨o, ho⟩ := hu.1 w0 hga
      subst ho
      refine ⟨_, rfl, fun w hw => ?_, fun w hw => ?_⟩
      · rw [dictGet_dictSet_self] at hw
        exact ⟨dictSet o suffix v, (Option.some.inj hw).symm⟩
      · rw [dictGet_dictSet_ne _ _ _ _ (by decide)] at hw
        exact hu.2 w hw

theorem processKey_ok (u : Record) (k : String) (v : RValue) (hu : goodU u)
    (hk : pyInStr "author" k = true → ((pySplitChar k '_')[1]?).isSome = true) :
    ∃ u', processKey u k v = .ok u' ∧ goodU u' := by
  unfold processKey
  by_cases h1 : pyInStr "author" k = true
  · rw [if_pos h1]
    have hs := hk h1
    cases hg : (pySplitChar k '_')[1]? with
    | none => rw [hg] at hs; simp at hs
    | some suffix => exact processAuthorSeg_ok u k v hu suffix
  · rw [if_neg h1]
    exact processKeyTail_ok u k v hu

theorem shapeLoop_cons (k : String) (v : RValue) (rest : Record) (u : Record) :
    shapeLoop ((k, v) :: rest) u =
      match processKey u k v with
      | .error e => .error e
      | .ok u' => shapeLoop rest u' := rfl

theorem shapeLoop_ok (pairs : Record) :
    ∀ u, goodU u →
    (pairs.all fun q => !pyInStr "author" q.1 || ((pySplitChar q.1 '_')[1]?).isSome) = true →
    ∃ u', shapeLoop pairs u = .ok u' ∧ goodU u' := by
  induction pairs with
  | nil => exact fun u hu _ => ⟨u, rfl, hu⟩
  | cons q rest ih =>
    intro u hu h
    obtain ⟨k, v⟩ := q
    rw [List.all_cons] at h
    obtain ⟨hq, hrest⟩ := Bool.and_eq_true_iff.mp h
    have hk : pyInStr "author" k = true → ((pySplitChar k '_')[1]?).isSome = true := by
      intro ha
      rcases Bool.or_eq_true_iff.mp hq with hx | hx
      · rw [ha] at hx; exact absurd hx (by decide)
      · exact hx
    obtain ⟨u', hpk, hu'⟩ := processKey_ok u k v hu hk
    have hs : shapeLoop ((k, v) :: rest) u = shapeLoop rest u' := by
      rw [shapeLoop_cons, hpk]
    rw [hs]
    exact ih u' hu' hrest

theorem applyRawField_some (data u : Record) (key outKey : String)
    (f : String → List String) (v : RValue) (hg : dictGet data key = some v) :
    applyRawField data u key outKey f = rawBlockVal u outKey f v := by
  unfold applyRawField
  cases hdg : dictGet data key with
  | none => rw [hdg] at hg; exact absurd hg (by simp)
  | some w =>
    rw [hdg] at hg
    have hv : w = v := Option.some.inj hg
    subst hv
    rfl

theorem rawBlockVal_ok (u : Record) (outKey : String) (f : String → List String)
    (v : RValue) (h : rawValOkB v = true) :
    ∃ u', rawBlockVal u outKey f v = .ok u' := by
  unfold rawBlockVal
  cases v with
  | str s =>
    by_cases ht : pyTruthy (RValue.str s) = true
    · rw [if_pos ht]; exact ⟨_, rfl⟩
    · rw [if_neg ht]; exact ⟨u, rfl⟩
  | int n =>
    have hf : pyTruthy (RValue.int n) = false := by simpa [rawValOkB] using h
    rw [hf]; exact ⟨u, by simp⟩
  | bool b =>
    have hf : pyTruthy (RValue.bool b) = false := by simpa [rawValOkB] using h
    rw [hf]; exact ⟨u, by simp⟩
  | null => exact ⟨u, rfl⟩
  | arr xs =>
    have hf : pyTruthy (RValue.arr xs) = false := by simpa [rawValOkB] using h
    rw [hf]; exact ⟨u, by simp⟩
  | obj fs =>
    have hf : pyTruthy (RValue.obj fs) = false := by simpa [rawValOkB] using h
    rw [hf]; exact ⟨u, by simp⟩

theorem applyRawField_ok (data u : Record) (key outKey : String)
    (f : String → List String) (h : rawOkB data key = true) :
    ∃ u', applyRawField data u key outKey f = .ok u' := by
  unfold rawOkB at h
  cases hg : dictGet data key with
  | none => rw [hg] at h; simp at h
  | some v =>
    rw [hg] at h
    rw [applyRawField_some data u key outKey f v hg]
    exact rawBlockVal_ok u outKey f v h

theorem shapeLoop_err (pairs : Record)
    (h : (pairs.any fun q =>
        pyInStr "author" q.1 && ((pySplitChar q.1 '_')[1]?).isNone) = true) :
    ∀ u, (shapeLoop pairs u).isOk = false := by
  induction pairs with
  | nil => simp at h
  | cons q rest ih =>
    intro u
    obtain ⟨k, v⟩ := q
    rw [List.any_cons] at h
    rcases Bool.or_eq_true_iff.mp h with hq | hrest
    · obtain ⟨ha, hn⟩ := Bool.and_eq_true_iff.mp hq
      have hnone : (pySplitChar k '_')[1]? = none := by simpa using hn
      have hpk : processKey u k v = .error .indexError := by
        unfold processKey
        rw [if_pos ha, hnone]
        rfl
      have hs : shapeLoop ((k, v) :: rest) u = .error .indexError := by
        rw [shapeLoop_cons, hpk]
      rw [hs]
      rfl
    · cases hpk : processKey u k v with
      | error e =>
        have hs : shapeLoop ((k, v) :: rest) u = .error e := by
          rw [shapeLoop_cons, hpk]
        rw [hs]
        rfl
      | ok u' =>
        have hs : shapeLoop ((k, v) :: rest) u = shapeLoop rest u' := by
          rw [shapeLoop_cons, hpk]
        rw [hs]
        exact ih hrest u'


/-- C1: the claim states that a timestamp ending in Z has exactly that
character stripped before ISO-8601 parsing, that a string not ending in Z
is parsed as-is, and that decoding "2023-05-21T21:04:53Z" and
"2023-05-21T21:04:53" both succeed with the same instant. On the code the
cattrs hook computes dt[:(-1 if "Z" in dt else 0)], so the Z form parses
after stripping, but the Z-free form is sliced to the empty string and
fromisoformat raises ValueError. The msgspec path of parse_story accepts
both forms (the Z form as aware UTC), which is the documented intent, so
the hook contradicts it: a code bug, evaluated here at both inputs. -/
theorem c1_datetime_hook_eval :
    structure_datetime "2023-05-21T21:04:53Z" = .ok ⟨2023, 5, 21, 21, 4, 53, false⟩ ∧
    structure_datetime "2023-05-21T21:04:53" = .error .valueError ∧
    msgspec_datetime "2023-05-21T21:04:53Z" = .ok ⟨2023, 5, 21, 21, 4, 53, true⟩ ∧
    msgspec_datetime "2023-05-21T21:04:53" = .ok ⟨2023, 5, 21, 21, 4, 53, false⟩ :=
  ⟨rfl, rfl, rfl, rfl⟩

/-- C2 counterexample: the claim says the reshape step never raises and in
particular that absence of the optional raw fields causes no exception,
but shape_data subscripts data["raw_characters"] unconditionally: on a
record without that key it raises KeyError inside the reshape step. -/
theorem c2_counterexample :
    shape_data [("id", RValue.int 1)] = .error (.keyError "raw_characters") := rfl

/-- C2 (amended): the reshape step raises no exception on every record in
which the three raw_* keys are present with string-or-falsy values and
every key containing "author" has a second underscore-delimited segment;
a record missing raw_characters (or raw_genres, raw_fandoms) instead
raises a KeyError in the reshape step itself. -/
theorem c2_amended (r : Record)
    (h1 : (r.all fun q =>
        !pyInStr "author" q.1 || ((pySplitChar q.1 '_')[1]?).isSome) = true)
    (h2 : rawOkB r "raw_characters" = true)
    (h3 : rawOkB r "raw_genres" = true)
    (h4 : rawOkB r "raw_fandoms" = true) :
    (shape_data r).isOk = true := by
  have hgood : goodU [] :=
    ⟨fun w hw => by simp [dictGet] at hw, fun w hw => by simp [dictGet] at hw⟩
  obtain ⟨u1, hl, hu1⟩ := shapeLoop_ok r [] hgood h1
  obtain ⟨u2, hc⟩ := applyRawField_ok r u1 "raw_characters" "characters" charactersOf h2
  obtain ⟨u3, hgn⟩ := applyRawField_ok r u2 "raw_genres" "genres" genresOf h3
  obtain ⟨u4, hfd⟩ := applyRawField_ok r u3 "raw_fandoms" "fandoms" fandomsOf h4
  simp only [shape_data, hl, hc, hgn, hfd]
  rfl

/-- C2 witness: the amended theorem applied to the full payload record. -/
theorem c2_amended_witness : (shape_data storyRec).isOk = true :=
  c2_amended storyRec (by decide) (by decide) (by decide) (by decide)

/-- C3 counterexample: the claim says reshaping an already-reshaped record
(no flat author_*, numbered fandom_id or *_count keys, derived keys
present) is a no-op on the derived fields; on the code the derived key
"author" itself contains the substring "author", "author".split("_") has
no second element, and the second reshape raises IndexError instead of
returning anything. -/
theorem c3_counterexample : (shape_data reshapedRec).isOk = false := rfl

/-- C3 (amended): re-reshaping is not idempotent but fails: shape_data
raises on every record that contains the derived key "author" (the key
contains "author" and indexing split("_")[1] raises IndexError), so a
second application to a reshaped record with an author field never
returns a record at all. -/
theorem c3_amended (r : Record) (h : (r.any fun q => q.1 == "author") = true) :
    (shape_data r).isOk = false := by
  have hbad : (r.any fun q =>
      pyInStr "author" q.1 && ((pySplitChar q.1 '_')[1]?).isNone) = true := by
    rw [List.any_eq_true] at h ⊢
    obtain ⟨q, hq, hk⟩ := h
    refine ⟨q, hq, ?_⟩
    have hq1 : q.1 = "author" := by simpa using hk
    rw [hq1]
    decide
  have herr := shapeLoop_err r hbad []
  cases hl : shapeLoop r [] with
  | error e => simp only [shape_data, hl]; rfl
  | ok u => rw [hl] at herr; exact Bool.noConfusion herr

/-- C3 witness: the amended theorem applied to a record holding a derived
author object. -/
theorem c3_amended_witness :
    (shape_data [("author", RValue.obj [])]).isOk = false :=
  c3_amended [("author", RValue.obj [])] (by decide)

/-- C10: the regex is matched as an unanchored substring with empty
alternatives for scheme and subdomain, so a host that merely ends in
fanfiction.net still matches: the id 123 is extracted from
https://otherfanfiction.net/s/123 rather than no value. -/
theorem c10_unanchored_host :
    extract_fic_id "https://otherfanfiction.net/s/123" = some 123 := rfl

/-- C4 counterexample: the claim says the author field name is the entire
segment after the first underscore, so author_pen_name would contribute
the field pen_name; the code indexes key.split("_")[1], the segment
between the first and second underscore, and the record with
author_pen_name = 7 reshapes to an author object whose only field is
"pen", not "pen_name". -/
theorem c4_counterexample :
    (shape_data (("author_pen_name", RValue.int 7) :: rawNullShell)).map
      (fun o => dictGet o "author") =
      .ok (some (.obj [("pen", .int 7)])) := rfl

/-- C4 (amended): for a key containing "author" the key is split on every
underscore and the second segment, when non-empty, becomes the nested
field name: author_id contributes id, author_name contributes name,
author_pen_name contributes pen (not pen_name), and a key with an empty
second segment such as author__note is skipped. -/
theorem c4_amended (v1 v2 v3 v4 : RValue) :
    (shape_data (authorRec v1 v2 v3 v4)).map (fun o => dictGet o "author") =
      .ok (some (.obj [("id", v1), ("name", v2), ("pen", v3)])) := rfl

/-- C4 witness: the amended theorem at concrete author values. -/
theorem c4_amended_witness :
    (shape_data (authorRec (RValue.int 424665) (RValue.str "megamatt09")
        (RValue.int 7) RValue.null)).map (fun o => dictGet o "author") =
      .ok (some (.obj [("id", RValue.int 424665),
        ("name", RValue.str "megamatt09"), ("pen", RValue.int 7)])) :=
  c4_amended (RValue.int 424665) (RValue.str "megamatt09") (RValue.int 7)
    RValue.null

/-- C7 counterexample: the claim quantifies over every key containing
"_count", but a key that also contains "author" is consumed by the author
rule first: author_count = 5 produces no top-level "authors" key (the
claimed first-segment-plus-s name) and instead lands as author.count. -/
theorem c7_counterexample :
    (shape_data (("author_count", RValue.int 5) :: rawNullShell)).map
      (fun o => (dictGet o "authors", dictGet o "author")) =
      .ok (none, some (.obj [("count", .int 5)])) := rfl

/-- C8 counterexample: the claim quantifies over every key containing
"fandom_id", but a key that also contains "author" is consumed by the
author rule first: author_fandom_id = 9 is not appended to fandom_ids
(which is never created) and instead lands as author.fandom. -/
theorem c8_counterexample :
    (shape_data (("author_fandom_id", RValue.int 9) :: rawNullShell)).map
      (fun o => (dictGet o "fandom_ids", dictGet o "author")) =
      .ok (none, some (.obj [("fandom", .int 9)])) := rfl

theorem key_beq_raw_false {k : String} (raw : String)
    (h3 : pyInStr "_count" k = true) (hraw : pyInStr "_count" raw = false) :
    (k == raw) = false := by
  refine beq_eq_false_iff_ne.mpr fun he => ?_
  rw [he] at h3
  rw [h3] at hraw
  exact Bool.noConfusion hraw

theorem fandom_key_beq_raw_false {k : String} (raw : String)
    (h3 : pyInStr "fandom_id" k = true) (hraw : pyInStr "fandom_id" raw = false) :
    (k == raw) = false := by
  refine beq_eq_false_iff_ne.mpr fun he => ?_
  rw [he] at h3
  rw [h3] at hraw
  exact Bool.noConfusion hraw

/-- C7 (amended): for every key containing "_count" that contains neither
"author" nor "fandom_id" (the two earlier elif branches), reshape stores
the same value under a new top-level key named by the first
underscore-delimited segment with "s" appended; consequently the full
payload record with chapter_count=13, word_count=114913, review_count=216,
favorite_count=878, follow_count=1073 decodes to a Story with
chapters=13, words=114913, reviews=216, favorites=878, follows=1073. -/
theorem c7_amended :
    (∀ (k : String) (v : RValue), pyInStr "author" k = false →
      pyInStr "fandom_id" k = false → pyInStr "_count" k = true →
      (shape_data (oneKeyRec k v)).map (fun o => dictGet o (firstSeg k ++ "s")) =
        .ok (some v)) ∧
    (parse_story storyRec).map
        (fun st => (st.chapters, st.words, st.reviews, st.favorites, st.follows)) =
      .ok (13, 114913, 216, 878, 1073) := by
  constructor
  · intro k v h1 h2 h3
    have hk1 : (k == "raw_characters") = false :=
      key_beq_raw_false "raw_characters" h3 (by decide)
    have hk2 : (k == "raw_genres") = false :=
      key_beq_raw_false "raw_genres" h3 (by decide)
    have hk3 : (k == "raw_fandoms") = false :=
      key_beq_raw_false "raw_fandoms" h3 (by decide)
    have hpk : processKey [] k v = .ok [(firstSeg k ++ "s", v)] := by
      unfold processKey
      rw [if_neg (by simp [h1])]
      unfold processKeyTail
      rw [if_neg (by simp [h2]), if_pos h3]
      rfl
    have hloop : shapeLoop (oneKeyRec k v) [] = .ok [(firstSeg k ++ "s", v)] := by
      show shapeLoop ((k, v) :: rawNullShell) [] = _
      rw [shapeLoop_cons, hpk]
      rfl
    have hdg1 : dictGet (oneKeyRec k v) "raw_characters" = some RValue.null := by
      simp [oneKeyRec, rawNullShell, dictGet, hk1]
    have hdg2 : dictGet (oneKeyRec k v) "raw_genres" = some RValue.null := by
      simp [oneKeyRec, rawNullShell, dictGet, hk2]
    have hdg3 : dictGet (oneKeyRec k v) "raw_fandoms" = some RValue.null := by
      simp [oneKeyRec, rawNullShell, dictGet, hk3]
    have ha1 : ∀ u, applyRawField (oneKeyRec k v) u "raw_characters" "characters"
        charactersOf = .ok u := fun u => by
      rw [applyRawField_some _ _ _ _ _ _ hdg1]
      rfl
    have ha2 : ∀ u, applyRawField (oneKeyRec k v) u "raw_genres" "genres"
        genresOf = .ok u := fun u => by
      rw [applyRawField_some _ _ _ _ _ _ hdg2]
      rfl
    have ha3 : ∀ u, applyRawField (oneKeyRec k v) u "raw_fandoms" "fandoms"
        fandomsOf = .ok u := fun u => by
      rw [applyRawField_some _ _ _ _ _ _ hdg3]
      rfl
    have hsd : shape_data (oneKeyRec k v) =
        .ok (dictSet (oneKeyRec k v) (firstSeg k ++ "s") v) := by
      simp only [shape_data, hloop, ha1, ha2, ha3]
      rfl
    rw [hsd]
    simp only [Except.map]
    rw [dictGet_dictSet_self]
  · rfl

/-- C7 witness: the generic part of the amended theorem applied to the
chapter_count key. -/
theorem c7_amended_witness :
    (shape_data (oneKeyRec "chapter_count" (RValue.int 13))).map
      (fun o => dictGet o (firstSeg "chapter_count" ++ "s")) =
      .ok (some (RValue.int 13)) :=
  c7_amended.1 "chapter_count" (RValue.int 13) (by decide) (by decide) (by decide)

/-- C8 (amended): every key containing "fandom_id" that is not captured by
the earlier author rule (does not contain "author") has its value appended
to the fandom_ids sequence; on the full payload record fandom_id0 = 224
and fandom_id1 = null decode, in insertion order, to [224, None], and
with no fandom_id keys at all the decoded sequence is the empty list,
never null. -/
theorem c8_amended :
    (∀ (k : String) (v : RValue), pyInStr "author" k = false →
      pyInStr "fandom_id" k = true →
      (shape_data (oneKeyRec k v)).map (fun o => dictGet o "fandom_ids") =
        .ok (some (.arr [v]))) ∧
    (parse_story storyRec).map Story.fandom_ids = .ok [some 224, none] ∧
    (parse_story storyRecNoFandoms).map Story.fandom_ids = .ok [] := by
  refine ⟨?_, rfl, rfl⟩
  intro k v h1 h2
  have hk1 : (k == "raw_characters") = false :=
    fandom_key_beq_raw_false "raw_characters" h2 (by decide)
  have hk2 : (k == "raw_genres") = false :=
    fandom_key_beq_raw_false "raw_genres" h2 (by decide)
  have hk3 : (k == "raw_fandoms") = false :=
    fandom_key_beq_raw_false "raw_fandoms" h2 (by decide)
  have hpk : processKey [] k v = .ok [("fandom_ids", RValue.arr [v])] := by
    unfold processKey
    rw [if_neg (by simp [h1])]
    unfold processKeyTail
    rw [if_pos h2]
    rfl
  have hloop : shapeLoop (oneKeyRec k v) [] = .ok [("fandom_ids", RValue.arr [v])] := by
    show shapeLoop ((k, v) :: rawNullShell) [] = _
    rw [shapeLoop_cons, hpk]
    rfl
  have hdg1 : dictGet (oneKeyRec k v) "raw_characters" = some RValue.null := by
    simp [oneKeyRec, rawNullShell, dictGet, hk1]
  have hdg2 : dictGet (oneKeyRec k v) "raw_genres" = some RValue.null := by
    simp [oneKeyRec, rawNullShell, dictGet, hk2]
  have hdg3 : dictGet (oneKeyRec k v) "raw_fandoms" = some RValue.null := by
    simp [oneKeyRec, rawNullShell, dictGet, hk3]
  have ha1 : ∀ u, applyRawField (oneKeyRec k v) u "raw_characters" "characters"
      charactersOf = .ok u := fun u => by
    rw [applyRawField_some _ _ _ _ _ _ hdg1]
    rfl
  have ha2 : ∀ u, applyRawField (oneKeyRec k v) u "raw_genres" "genres"
      genresOf = .ok u := fun u => by
    rw [applyRawField_some _ _ _ _ _ _ hdg2]
    rfl
  have ha3 : ∀ u, applyRawField (oneKeyRec k v) u "raw_fandoms" "fandoms"
      fandomsOf = .ok u := fun u => by
    rw [applyRawField_some _ _ _ _ _ _ hdg3]
    rfl
  have hsd : shape_data (oneKeyRec k v) =
      .ok (dictSet (oneKeyRec k v) "fandom_ids" (RValue.arr [v])) := by
    simp only [shape_data, hloop, ha1, ha2, ha3]
    rfl
  rw [hsd]
  simp only [Except.map]
  rw [dictGet_dictSet_self]

/-- C8 witness: the generic part of the amended theorem applied to the
fandom_id0 key with a null value. -/
theorem c8_amended_witness :
    (shape_data (oneKeyRec "fandom_id0" RValue.null)).map
      (fun o => dictGet o "fandom_ids") =
      .ok (some (RValue.arr [RValue.null])) :=
  c8_amended.1 "fandom_id0" RValue.null (by decide) (by decide)

theorem removeSuffixL_append (l suf : List Char) :
    removeSuffixL (l ++ suf) suf = l := by
  unfold removeSuffixL
  rw [if_pos (List.isSuffixOf_iff_suffix.mpr (List.suffix_append l suf))]
  rw [List.length_append, Nat.add_sub_cancel, List.take_left]

theorem data_ne_nil_of_ne_empty {s : String} (h : s ≠ "") : s.data ≠ [] := by
  intro hd
  apply h
  cases s
  cases hd
  rfl

theorem pyTruthy_str_of_data {s : String} (h : s.data ≠ []) :
    pyTruthy (RValue.str s) = true := by
  show (!s.data.isEmpty) = true
  cases hs : s.data with
  | nil => exact absurd hs h
  | cons c cs => rfl

theorem shape_fandomShell (s : String) (hne : s.data ≠ []) :
    (shape_data (fandomShell s)).map (fun o => dictGet o "fandoms") =
      .ok (some (RValue.arr ((fandomsOf s).map RValue.str))) := by
  have ht : pyTruthy (RValue.str s) = true := pyTruthy_str_of_data hne
  have hloop : shapeLoop (fandomShell s) [] = .ok [] := rfl
  have hc : applyRawField (fandomShell s) [] "raw_characters" "characters"
      charactersOf = .ok [] := rfl
  have hg : applyRawField (fandomShell s) [] "raw_genres" "genres"
      genresOf = .ok [] := rfl
  have hdg : dictGet (fandomShell s) "raw_fandoms" = some (RValue.str s) := rfl
  have hf : applyRawField (fandomShell s) [] "raw_fandoms" "fandoms" fandomsOf =
      .ok [("fandoms", RValue.arr ((fandomsOf s).map RValue.str))] := by
    rw [applyRawField_some _ _ _ _ _ _ hdg]
    unfold rawBlockVal
    rw [if_pos ht]
    rfl
  simp only [shape_data, hloop, hc, hg, hf]
  have hupd : dictUpdate (fandomShell s)
      [("fandoms", RValue.arr ((fandomsOf s).map RValue.str))] =
      dictSet (fandomShell s) "fandoms" (RValue.arr ((fandomsOf s).map RValue.str)) := rfl
  simp only [Except.map]
  rw [hupd, dictGet_dictSet_self]

/-- C5: for a record whose raw_fandoms is present and non-empty, the
fandoms sequence is raw_fandoms split on the literal " and " with at most
one split, with the literal case-sensitive suffix " Crossovers" stripped
from the second segment only: generically, raw_fandoms = X (with no
occurrence of " and " available before the appended separator) yields
fandoms = [X], and raw_fandoms = X ++ " and " ++ Y ++ " Crossovers" yields
fandoms = [X, Y], order preserved. -/
theorem c5_fandoms (X Y : String) (hX : X ≠ "")
    (hno : pyInStr " and " (X ++ " and") = false) :
    (shape_data (fandomShell X)).map (fun o => dictGet o "fandoms") =
      .ok (some (RValue.arr [RValue.str X])) ∧
    (shape_data (fandomShell (X ++ " and " ++ Y ++ " Crossovers"))).map
        (fun o => dictGet o "fandoms") =
      .ok (some (RValue.arr [RValue.str X, RValue.str Y])) := by
  have hnone : firstOccur ' ' "and ".data (X.data ++ " and".data) = none := by
    cases hx : firstOccur ' ' "and ".data (X.data ++ " and".data) with
    | none => rfl
    | some pr =>
      have hT : pyInStr " and " (X ++ " and") = true := by
        show (firstOccur ' ' "and ".data (X.data ++ " and".data)).isSome = true
        rw [hx]
        rfl
      rw [hno] at hT
      exact Bool.noConfusion hT
  constructor
  · have hXnone : firstOccur ' ' "and ".data X.data = none :=
      firstOccur_none_of_append ' ' "and ".data X.data " and".data hnone
    have hfA : fandomsOf X = [X] := by
      unfold fandomsOf
      rw [hXnone]
    rw [shape_fandomShell X (data_ne_nil_of_ne_empty hX), hfA]
    rfl
  · have hsd : (X ++ " and " ++ Y ++ " Crossovers").data =
        X.data ++ ((' ' :: "and ".data) ++ (Y.data ++ " Crossovers".data)) := by
      show ((X.data ++ " and ".data) ++ Y.data) ++ " Crossovers".data = _
      rw [show " and ".data = ' ' :: "and ".data from rfl]
      simp [List.append_assoc]
    have hsw : firstOccur ' ' "and ".data
        ((X ++ " and " ++ Y ++ " Crossovers").data) =
        some (X.data, Y.data ++ " Crossovers".data) := by
      rw [hsd]
      exact firstOccur_sandwich ' ' "and ".data X.data
        (Y.data ++ " Crossovers".data)
        (by rw [show (' ' :: "and ".data).dropLast = " and".data from rfl]
            exact hnone)
    have hfB : fandomsOf (X ++ " and " ++ Y ++ " Crossovers") = [X, Y] := by
      unfold fandomsOf
      rw [hsw]
      show [String.mk X.data,
        String.mk (removeSuffixL (Y.data ++ " Crossovers".data)
          " Crossovers".data)] = [X, Y]
      rw [removeSuffixL_append]
    have hBne : (X ++ " and " ++ Y ++ " Crossovers").data ≠ [] := by
      rw [hsd]
      intro hc
      have hl := congrArg List.length hc
      simp [List.length_append] at hl
    rw [shape_fandomShell _ hBne, hfB]
    rfl

/-- C5 witness: the theorem at the concrete fandom strings of the spec's
crossover example shape. -/
theorem c5_fandoms_witness :
    (shape_data (fandomShell "Harry Potter")).map (fun o => dictGet o "fandoms") =
      .ok (some (RValue.arr [RValue.str "Harry Potter"])) ∧
    (shape_data (fandomShell ("Harry Potter" ++ " and " ++ "Naruto" ++ " Crossovers"))).map
        (fun o => dictGet o "fandoms") =
      .ok (some (RValue.arr [RValue.str "Harry Potter", RValue.str "Naruto"])) :=
  c5_fandoms "Harry Potter" "Naruto" (by decide) (by decide)

/-- C6: characters are derived from raw_characters by replacing every
literal bracket with ", ", splitting on ", ", and discarding empty or
whitespace-only segments while preserving the order of the rest: the full
payload record with raw_characters = null decodes to characters = [], the
same record with raw_characters = "[Harry, Hermione]" decodes to
["Harry", "Hermione"], every surviving segment contains a non-whitespace
character, and the surviving segments are a sublist (order preserved) of
the unfiltered split segments. -/
theorem c6_characters :
    (parse_story storyRec).map Story.characters = .ok [] ∧
    (parse_story storyRecChars).map Story.characters = .ok ["Harry", "Hermione"] ∧
    (∀ s : String,
      ((charactersOf s).all fun c => c.data.any fun ch => !pySpace ch) = true) ∧
    (∀ s : String, List.Sublist (charactersOf s) (charSegments s)) := by
  refine ⟨rfl, rfl, ?_, ?_⟩
  · intro s
    rw [List.all_eq_true]
    intro c hc
    unfold charactersOf at hc
    rw [List.mem_map] at hc
    obtain ⟨l, hl, hcl⟩ := hc
    rw [List.mem_filter] at hl
    subst hcl
    exact hl.2
  · intro s
    unfold charactersOf charSegments
    exact (List.filter_sublist (charList s)).map (fun l => String.mk l)

/-- C6 witness: the generic parts of the theorem at the bracketed example
string. -/
theorem c6_characters_witness :
    (((charactersOf "[Harry, Hermione]").all
        fun c => c.data.any fun ch => !pySpace ch) = true) ∧
    List.Sublist (charactersOf "[Harry, Hermione]") (charSegments "[Harry, Hermione]") :=
  ⟨c6_characters.2.2.1 "[Harry, Hermione]",
    c6_characters.2.2.2 "[Harry, Hermione]"⟩

theorem tryLit_eq_some {lit s r : List Char} (h : tryLit lit s = some r) :
    r = s.drop lit.length := by
  unfold tryLit at h
  by_cases hp : lit.isPrefixOf s = true
  · rw [if_pos hp] at h
    exact (Option.some.inj h).symm
  · rw [if_neg hp] at h
    exact absurd h (by simp)

theorem matchHost_none (s : List Char)
    (h : firstOccur 'f' "anfiction.net/s/".data s = none) :
    matchHost s = none := by
  have hp : ¬ ("fanfiction.net/s/".data.isPrefixOf s = true) := by
    intro hpf
    obtain ⟨u, hu⟩ := List.isPrefixOf_iff_prefix.mp hpf
    have hocc := occ_isSome 'f' "anfiction.net/s/".data [] s u (by simpa using hu.symm)
    rw [h] at hocc
    exact Bool.noConfusion hocc
  unfold matchHost tryLit
  rw [if_neg hp]

theorem firstOccur_none_drop (p : Char) (ps : List Char) (n : Nat) (s : List Char)
    (h : firstOccur p ps s = none) : firstOccur p ps (s.drop n) = none := by
  refine firstOccur_none_of_append_left p ps (s.take n) (s.drop n) ?_
  rw [List.take_append_drop]
  exact h

theorem matchSubdomain_none (s : List Char)
    (h : firstOccur 'f' "anfiction.net/s/".data s = none) :
    matchSubdomain s = none := by
  unfold matchSubdomain
  have hw : (match tryLit "www.".data s with
      | some r => matchHost r
      | none => none) = none := by
    cases hx : tryLit "www.".data s with
    | none => rfl
    | some r =>
      have hr := tryLit_eq_some hx
      subst hr
      exact matchHost_none _ (firstOccur_none_drop _ _ _ _ h)
  have hm : (match tryLit "m.".data s with
      | some r => matchHost r
      | none => none) = none := by
    cases hx : tryLit "m.".data s with
    | none => rfl
    | some r =>
      have hr := tryLit_eq_some hx
      subst hr
      exact matchHost_none _ (firstOccur_none_drop _ _ _ _ h)
  rw [hw, hm, matchHost_none s h]
  rfl

theorem matchScheme_none (s : List Char)
    (h : firstOccur 'f' "anfiction.net/s/".data s = none) :
    matchScheme s = none := by
  unfold matchScheme
  have hw : (match tryLit "https://".data s with
      | some r => matchSubdomain r
      | none => none) = none := by
    cases hx : tryLit "https://".data s with
    | none => rfl
    | some r =>
      have hr := tryLit_eq_some hx
      subst hr
      exact matchSubdomain_none _ (firstOccur_none_drop _ _ _ _ h)
  have hm : (match tryLit "http://".data s with
      | some r => matchSubdomain r
      | none => none) = none := by
    cases hx : tryLit "http://".data s with
    | none => rfl
    | some r =>
      have hr := tryLit_eq_some hx
      subst hr
      exact matchSubdomain_none _ (firstOccur_none_drop _ _ _ _ h)
  rw [hw, hm, matchSubdomain_none s h]
  rfl

theorem scanText_none (s : List Char)
    (h : firstOccur 'f' "anfiction.net/s/".data s = none) :
    scanText s = none := by
  induction s with
  | nil => rfl
  | cons c cs ih =>
    have hms : matchScheme (c :: cs) = none := matchScheme_none _ h
    unfold scanText
    rw [hms]
    exact ih (firstOccur_cons_none h)

/-- C9: extract_fic_id returns the integer from the digit run following
/s/ at the leftmost match of the story-URL pattern, ignoring everything
after the digit run (the leading conjunct holds for every trailing slug),
and returns no value when no match exists: concretely on the two valid
story URLs of the repository test-suite and on the digit-free path, and
generally on any text not containing the mandatory literal
fanfiction.net/s/ at all. -/
theorem c9_extract :
    (∀ slug : String,
      extract_fic_id ("https://www.fanfiction.net/s/13912800/" ++ slug) =
        some 13912800) ∧
    extract_fic_id "https://www.fanfiction.net/s/14182918/1/" = some 14182918 ∧
    extract_fic_id "https://www.fanfiction.net/s/asdfasdfasdf" = none ∧
    (∀ t : String, pyInStr "fanfiction.net/s/" t = false →
      extract_fic_id t = none) := by
  refine ⟨fun slug => rfl, rfl, rfl, ?_⟩
  intro t ht
  have h0 : firstOccur 'f' "anfiction.net/s/".data t.data = none := by
    cases hx : firstOccur 'f' "anfiction.net/s/".data t.data with
    | none => rfl
    | some pr =>
      have hT : pyInStr "fanfiction.net/s/" t = true := by
        show (firstOccur 'f' "anfiction.net/s/".data t.data).isSome = true
        rw [hx]
        rfl
      rw [ht] at hT
      exact Bool.noConfusion hT
  exact scanText_none t.data h0

/-- C9 witness: the slug-generality at the test slug and the no-match part
at a text with no story URL. -/
theorem c9_extract_witness :
    extract_fic_id ("https://www.fanfiction.net/s/13912800/" ++ "1/Magical-Marvel") =
      some 13912800 ∧
    extract_fic_id "no story links here" = none :=
  ⟨c9_extract.1 "1/Magical-Marvel",
    c9_extract.2.2.2 "no story links here" (by decide)⟩
